import Mathlib

/-!
# IRONCLAD — verification of the extraction-to-comparison data surface

A shallow embedding, in Lean 4, of the IRONCLAD viewer logic
(`docs/assets/js/viewer.js`), of the pipeline sample data
(`docs/assets/js/workflow.js`), and — where the engine itself is not part
of the repository files available here (the Python pipeline behind the
viewer) — of the documented contracts for unit normalization and the
comparison/novelty aggregator.

Modelling conventions:
* JavaScript numbers are modelled as rationals (`ℚ`); `null`/`undefined`
  object fields are modelled as `Option`.
* JavaScript string operations (`toLowerCase`, `trim`, `includes`, the
  quote-doubling regex replace, `Array.join`) are modelled by
  character-list functions so that every definition is executable.
* Loose JSON objects exchanged with the viewer are modelled by the `Json`
  inductive type below.
-/

/-! ## Character/string helpers modelling the JavaScript string operations -/

/-- The double-quote character, written via its code point. -/
def quoteChar : Char := Char.ofNat 34

/-- Model of JavaScript `String.prototype.toLowerCase` (ASCII-level). -/
def lowerStr (s : String) : String := String.mk (s.toList.map Char.toLower)

/-- Model of JavaScript `String.prototype.trim`. -/
def trimStr (s : String) : String :=
  String.mk (((s.toList.dropWhile Char.isWhitespace).reverse.dropWhile Char.isWhitespace).reverse)

/-- Does `q` occur as a leading segment of `l`? (helper for substring search). -/
def startsWithChars : List Char → List Char → Bool
  | [], _ => true
  | _ :: _, [] => false
  | a :: as, b :: bs => (a = b) && startsWithChars as bs

/-- Does `q` occur as a contiguous segment of the second list? -/
def hasSubChars (q : List Char) : List Char → Bool
  | [] => q.isEmpty
  | c :: rest => startsWithChars q (c :: rest) || hasSubChars q rest

/-- Model of JavaScript `String.prototype.includes`. -/
def strContains (hay q : String) : Bool := hasSubChars q.toList hay.toList

/-- Model of the regex replace in `exportFilteredCsv` that doubles every
double-quote character of a cell. -/
def escapeQuotes (s : String) : String :=
  String.mk (s.toList.flatMap (fun c => if c = quoteChar then [quoteChar, quoteChar] else [c]))

/-- One CSV cell as built by `exportFilteredCsv`: a double quote, the
escaped content, a double quote. -/
def csvCell (s : String) : String :=
  String.mk [quoteChar] ++ escapeQuotes s ++ String.mk [quoteChar]

/-! ## Rational formatting helpers (model of `Number.prototype.toFixed` /
`toExponential` used by `fmtValue` in `viewer.js`) -/

/-- Floor of a rational as an integer (executable). -/
def ratFloor (q : ℚ) : ℤ := Int.fdiv q.num (q.den : ℤ)

/-- Round a nonnegative rational to the nearest integer (half up). -/
def ratRound (q : ℚ) : ℤ := ratFloor (q + 1/2)

/-- Pad a digit string on the left with zeros to length `n`. -/
def padZeros (n : ℕ) (s : String) : String :=
  if s.length < n then String.mk (List.replicate (n - s.length) '0') ++ s else s

/-- Model of JavaScript `v.toFixed(n)` on a rational value. -/
def toFixedQ (n : ℕ) (v : ℚ) : String :=
  let mn : ℕ := (ratRound (|v| * ((10 ^ n : ℕ) : ℚ))).toNat
  let ip : ℕ := mn / 10 ^ n
  let fp : ℕ := mn % 10 ^ n
  (if v < 0 ∧ mn ≠ 0 then "-" else "") ++ toString ip ++
    (if n = 0 then "" else "." ++ padZeros n (toString fp))

/-- Number of decimal digits of a natural number (1 for 0). -/
def digitCount (n : ℕ) : ℕ := (Nat.toDigits 10 n).length

/-- Decimal exponent of a positive rational: the `e` with `10^e ≤ q < 10^(e+1)`. -/
def decExpOf (q : ℚ) : ℤ :=
  if 1 ≤ q then ((digitCount (ratFloor q).toNat : ℤ) - 1)
  else
    let m : ℕ := (-(ratFloor (-q⁻¹))).toNat
    if m ≤ 1 then 0 else -(digitCount (m - 1) : ℤ)

/-- Integer power of ten over ℚ (executable for negative exponents too). -/
def pow10 (e : ℤ) : ℚ :=
  if 0 ≤ e then ((10 ^ e.toNat : ℕ) : ℚ) else (((10 ^ (-e).toNat : ℕ) : ℚ))⁻¹

/-- Model of JavaScript `v.toExponential(digits)` on a rational value. -/
def toExponentialQ (digits : ℕ) (v : ℚ) : String :=
  if v = 0 then toFixedQ digits 0 ++ "e+0"
  else
    let e : ℤ := decExpOf |v|
    let mant : ℚ := |v| / pow10 e
    (if v < 0 then "-" else "") ++ toFixedQ digits mant ++ "e" ++
      (if 0 ≤ e then "+" else "") ++ toString e

/-- Function `fmtValue` from `viewer.js` (numeric branch; values are
rationals). -/
def fmtValue (v : ℚ) : String :=
  let av := |v|
  if av ≠ 0 ∧ (10000 ≤ av ∨ av < 1/1000) then toExponentialQ 3 v
  else if 100 ≤ av then toFixedQ 2 v
  else if 1 ≤ av then toFixedQ 3 v
  else toFixedQ 4 v

/-! ## The Record data model (§3 of the documented data model, as consumed
by `viewer.js`) -/

/-- The provenance object (page and snippet) of a Record. -/
structure Provenance where
  page : Option ℤ
  snippet : Option String
deriving DecidableEq, Inhabited

/-- The constraints object (hard_fail and soft_warn lists) of a Record. -/
structure Constraints where
  hard_fail : List String
  soft_warn : List String
deriving DecidableEq, Inhabited

/-- One extracted claim, as the viewer receives it from the export object.
Absent JSON fields are `none`. -/
structure Record where
  material : Option String := none
  category : Option String := none
  property : Option String := none
  value_min : Option ℚ := none
  value_max : Option ℚ := none
  unit_original : Option String := none
  value_si_min : Option ℚ := none
  value_si_max : Option ℚ := none
  unit_si : Option String := none
  provenance : Option Provenance := none
  citations : Option (List String) := none
  origin : Option String := none
  confidence : Option ℚ := none
  constraints : Option Constraints := none
  method : Option String := none
deriving DecidableEq, Inhabited

/-- Reads the optional chain from record to constraints to hard_fail,
defaulting to the empty list as the JS code does. -/
def hardFailList (r : Record) : List String :=
  (r.constraints.map Constraints.hard_fail).getD []

/-- Function `hardFailDisplay` from `viewer.js`: joined hard-fail entries. -/
def hardFailDisplay (r : Record) : String :=
  String.intercalate "; " (hardFailList r)

/-- Function `getPage` from `viewer.js`: the provenance page with the
empty string modelled by `none`. -/
def getPage (r : Record) : Option ℤ :=
  r.provenance.bind Provenance.page

/-- Function `valueDisplay` from `viewer.js`: point values print once,
ranges with an en dash, a missing `value_min` prints as empty. -/
def valueDisplay (r : Record) : String :=
  match r.value_min with
  | none => ""
  | some a =>
    match r.value_max with
    | none => fmtValue a
    | some b => if b = a then fmtValue a else fmtValue a ++ "–" ++ fmtValue b

/-! ## Filtering and views (`recordMatchesFilters`, `buildRecordViews`) -/

/-- The state of the four filter controls read by `recordMatchesFilters`. -/
structure Filters where
  search : String
  origin : String
  category : String
  hardFailOnly : Bool
deriving DecidableEq, Inhabited

/-- The search haystack of `recordMatchesFilters`: material, property,
category, provenance snippet and joined citations, joined by spaces and
lowercased. -/
def searchHay (r : Record) : String :=
  lowerStr (String.intercalate " "
    [r.material.getD "", r.property.getD "", r.category.getD "",
     (r.provenance.bind Provenance.snippet).getD "",
     String.intercalate " " (r.citations.getD [])])

/-- Function `recordMatchesFilters` from `viewer.js`. -/
def recordMatchesFilters (f : Filters) (r : Record) : Bool :=
  let q := lowerStr (trimStr f.search)
  if f.origin ≠ "all" ∧ r.origin.getD "" ≠ f.origin then false
  else if f.category ≠ "all" ∧ r.category.getD "" ≠ f.category then false
  else if f.hardFailOnly ∧ (hardFailList r).isEmpty then false
  else if q ≠ "" then strContains (searchHay r) q
  else true

/-- One row view as pushed by `buildRecordViews`. -/
structure RecordView where
  idx : ℕ
  material : String
  category : String
  property : String
  value_display : String
  unit_original : String
  page : Option ℤ
  origin : String
  confidence : Option ℚ
  hard_fail : String
deriving DecidableEq, Inhabited

/-- The view `buildRecordViews` builds for the record at index `i`. -/
def mkRecordView (i : ℕ) (r : Record) : RecordView where
  idx := i
  material := r.material.getD ""
  category := r.category.getD ""
  property := r.property.getD ""
  value_display := valueDisplay r
  unit_original := r.unit_original.getD ""
  page := getPage r
  origin := r.origin.getD ""
  confidence := r.confidence
  hard_fail := hardFailDisplay r

/-- The indexed loop of `buildRecordViews`, starting at index `i`. -/
def buildRecordViewsAux (f : Filters) : ℕ → List Record → List RecordView
  | _, [] => []
  | i, r :: rs =>
    if recordMatchesFilters f r then mkRecordView i r :: buildRecordViewsAux f (i + 1) rs
    else buildRecordViewsAux f (i + 1) rs

/-- Function `buildRecordViews` from `viewer.js`: the filtered record
views. -/
def buildRecordViews (f : Filters) (records : List Record) : List RecordView :=
  buildRecordViewsAux f 0 records

/-- JavaScript array indexing `records[i]` as used on view indices. -/
def jsIndex (records : List Record) (i : ℕ) : Record :=
  (records.get? i).getD default

/-! ## Exports (`exportFilteredCsv`, `exportFilteredJson`) -/

/-- The JS string coercion of an optional string, empty when absent. -/
def jsStr (s : Option String) : String := s.getD ""

/-- The JS string coercion of an optional number (rationals print as
`num/den`, integers without the denominator). -/
def jsShow (q : Option ℚ) : String :=
  match q with
  | none => ""
  | some v => toString v

/-- The JS string coercion of the page of a record, empty when absent. -/
def pageStr (r : Record) : String :=
  match getPage r with
  | none => ""
  | some n => toString n

/-- Function `exportFilteredCsv` from `viewer.js`: the header line followed by one
CSV line per filtered view, each cell quoted and escaped.  The function
reads the current views (`state.filteredRecordViews`) and the loaded
records (`state.records`), which are passed here explicitly. -/
def exportFilteredCsv (records : List Record) (views : List RecordView) : List String :=
  let cols := ["material", "category", "property", "value_min", "value_max",
    "unit_original", "origin", "confidence", "page", "citations", "hard_fail"]
  let rows := views.map (fun v =>
    let r := jsIndex records v.idx
    String.intercalate ","
      (([jsStr r.material, jsStr r.category, jsStr r.property,
         jsShow r.value_min, jsShow r.value_max, jsStr r.unit_original,
         jsStr r.origin, jsShow r.confidence, pageStr r,
         String.intercalate "; " (r.citations.getD []),
         String.intercalate "; " (hardFailList r)]).map csvCell))
  String.intercalate "," cols :: rows

/-- Function `exportFilteredJson` from `viewer.js`: the filtered records
themselves. -/
def exportFilteredJson (records : List Record) (views : List RecordView) : List Record :=
  views.map (fun v => jsIndex records v.idx)

/-! ## Comparison table rendering (`renderComparisonTable`) -/

/-- A comparison row as the viewer receives it; absent fields are `none`. -/
structure ComparisonRowObj where
  material : Option String := none
  property : Option String := none
  category : Option String := none
  this_work : Option String := none
  paper_cited_literature : Option String := none
  external_baseline : Option String := none
  novelty_flag : Option String := none
deriving DecidableEq, Inhabited

/-- JavaScript property access `r[c]` for the column names used by
`renderComparisonTable`. -/
def cmpField (r : ComparisonRowObj) (c : String) : Option String :=
  if c = "material" then r.material
  else if c = "property" then r.property
  else if c = "category" then r.category
  else if c = "this_work" then r.this_work
  else if c = "paper_cited_literature" then r.paper_cited_literature
  else if c = "external_baseline" then r.external_baseline
  else if c = "novelty_flag" then r.novelty_flag
  else none

/-- The column list of `renderComparisonTable`. -/
def comparisonCols : List String :=
  ["material", "property", "category", "this_work", "paper_cited_literature",
   "external_baseline", "novelty_flag"]

/-- Function `renderComparisonTable` from `viewer.js`: one cell list per
row, the JS string coercion of the field at each column name, empty when
absent. -/
def renderComparisonTable (rows : List ComparisonRowObj) : List (List String) :=
  rows.map (fun r => comparisonCols.map (fun c => (cmpField r c).getD ""))

/-! ## Per-origin statistics of `renderRecordsTable` -/

/-- The origin key used in the stats loop of `renderRecordsTable`: the
origin of the record, falling back to unclear when falsy. -/
def originKeyOf (r : Record) : String :=
  if r.origin.getD "" = "" then "unclear" else r.origin.getD ""

/-- The count `byOrigin[o] || 0` shown by `renderRecordsTable`, computed
over all loaded records (the filters play no part). -/
def countOrigin (records : List Record) (o : String) : ℕ :=
  records.countP (fun r => originKeyOf r = o)

/-! ## JSON values and `loadJsonObject` -/

/-- A JSON value as exchanged with the viewer (numbers as rationals). -/
inductive Json where
  | null : Json
  | bool : Bool → Json
  | num : ℚ → Json
  | str : String → Json
  | arr : List Json → Json
  | obj : List (String × Json) → Json

/-- JavaScript truthiness of a JSON value. -/
def Json.truthy : Json → Bool
  | .null => false
  | .bool b => b
  | .num q => q ≠ 0
  | .str s => s ≠ ""
  | .arr _ => true
  | .obj _ => true

/-- Whether the JS typeof operator reports object for this JSON value
(null, arrays and objects). -/
def Json.isObjectType : Json → Bool
  | .null => true
  | .arr _ => true
  | .obj _ => true
  | _ => false

/-- JavaScript property access `v.k` (absent keys give `none`). -/
def Json.get : Json → String → Option Json
  | .obj kvs, k => kvs.lookup k
  | _, _ => none

/-- The JS array guard used by `loadJsonObject`: the elements when the
value is an array, else the empty list. -/
def jsArrayOrEmpty (j : Option Json) : List Json :=
  match j with
  | some (.arr l) => l
  | _ => []

/-- The viewer state populated by `loadJsonObject`. -/
structure LoadedState where
  records : List Json
  comparison : List Json
  tables : List Json
  figures : Option Json
  logs : List Json

/-- Function `loadJsonObject` from `viewer.js`: reject non-objects, then read the
top-level export fields by name, arrays defaulting to `[]` and `figures`
to `null`. -/
def loadJsonObject (obj : Json) : Option LoadedState :=
  if obj.truthy ∧ obj.isObjectType then
    some
      { records := jsArrayOrEmpty (obj.get "records")
        comparison := jsArrayOrEmpty (obj.get "comparison")
        tables := jsArrayOrEmpty (obj.get "tables")
        figures :=
          match obj.get "figures" with
          | some f => if f.truthy then some f else none
          | none => none
        logs := jsArrayOrEmpty (obj.get "logs") }
  else none

/-- Modelled from the spec: the Export Surface (§2 step 7, §6) that
serializes the document-level export object is part of the Python
pipeline, which is not among the repository files available here.  Per the
spec it produces an object with exactly the top-level fields `doc_id`,
`records`, `comparison`, `tables`, `figures` (with a nested `images`
sequence) and `logs`. -/
def exportDocument (doc_id : String) (records comparison tables images : List Json)
    (logs : List String) : Json :=
  Json.obj
    [("doc_id", Json.str doc_id),
     ("records", Json.arr records),
     ("comparison", Json.arr comparison),
     ("tables", Json.arr tables),
     ("figures", Json.obj [("images", Json.arr images)]),
     ("logs", Json.arr (logs.map Json.str))]

/-! ## Unit normalization (modelled from the spec) -/

/-- Modelled from the spec: the Unit Normalization Engine (§4.2) is part of
the Python pipeline, which is not among the repository files available
here; the viewer only displays its outputs.  A conversion rule maps a
`(unit_original, property)` pair to a multiplicative factor into the
canonical SI unit for the property. -/
structure ConvRule where
  unit_original : String
  property : String
  factor : ℚ
  unit_si : String
deriving DecidableEq, Inhabited

/-- Modelled from the spec: the rule table of §4.2 — conductivity is
canonically S/m, commonly reported as S/cm with factor 100; prefixed
forms compose the prefix table (m = 1e-3, µ = 1e-6, k = 1e3) with the
base-unit factor. -/
def conversionRules : List ConvRule :=
  [⟨"S/cm", "ionic_conductivity", 100, "S/m"⟩,
   ⟨"S/m", "ionic_conductivity", 1, "S/m"⟩,
   ⟨"mS/cm", "ionic_conductivity", (1 : ℚ)/1000 * 100, "S/m"⟩,
   ⟨"µS/cm", "ionic_conductivity", (1 : ℚ)/1000000 * 100, "S/m"⟩,
   ⟨"kS/m", "ionic_conductivity", 1000, "S/m"⟩]

/-- Look up the conversion rule for a `(unit_original, property)` pair. -/
def findRule (u p : String) : Option ConvRule :=
  conversionRules.find? (fun c => c.unit_original = u ∧ c.property = p)

/-- Modelled from the spec: `value_si = value_original * factor`. -/
def toSI (u p : String) (v : ℚ) : Option ℚ :=
  (findRule u p).map (fun c => v * c.factor)

/-- Modelled from the spec: converting an SI value back with the inverse
factor. -/
def fromSI (u p : String) (v : ℚ) : Option ℚ :=
  (findRule u p).map (fun c => v / c.factor)

/-- Modelled from the spec: the normalization stage fills `value_si_min`,
`value_si_max` and `unit_si` from the rule table, or records the
`unsupported_unit` limitation with SI fields left null. -/
def normalizeRecord (r : Record) : Record :=
  match findRule (r.unit_original.getD "") (r.property.getD "") with
  | some c =>
    { r with
      value_si_min := r.value_min.map (fun v => v * c.factor)
      value_si_max := r.value_max.map (fun v => v * c.factor)
      unit_si := some c.unit_si
      method := some "unit_factor" }
  | none =>
    { r with
      value_si_min := none
      value_si_max := none
      unit_si := none
      method := some "unsupported_unit" }

/-! ## Comparison & novelty aggregation (modelled from the spec) -/

/-- Modelled from the spec: an external baseline entry (§3), matched by
exact material+property and never mutated. -/
structure BaselineEntry where
  material : String
  property : String
  value_min : ℚ
  value_max : ℚ
  unit_si : String
deriving DecidableEq, Inhabited

/-- A record takes part in aggregation exactly when its `hard_fail` set is
empty (§4.5: "group Records (excluding hard_fail Records)"). -/
def eligible (r : Record) : Bool := (hardFailList r).isEmpty

/-- The aggregation group key `(material, property, category)`. -/
def groupKey (r : Record) : String × String × String :=
  (r.material.getD "", r.property.getD "", r.category.getD "")

/-- The numeric lower bound a record contributes: its SI minimum when
available, else its original minimum (§4.5 formatting rule). -/
def recordLo (r : Record) : Option ℚ :=
  match r.value_si_min with
  | some v => some v
  | none => r.value_min

/-- The numeric upper bound a record contributes: its SI maximum when
available, else its original maximum, else its lower bound (point value). -/
def recordHi (r : Record) : Option ℚ :=
  match r.value_si_max with
  | some v => some v
  | none =>
    match r.value_max with
    | some v => some v
    | none => recordLo r

/-- The min–max range spanned by a list of records (`none` when no record
contributes a value). -/
def rangeOf (rs : List Record) : Option (ℚ × ℚ) :=
  match rs.filterMap recordLo, rs.filterMap recordHi with
  | a :: as, b :: bs => some (as.foldl min a, bs.foldl max b)
  | _, _ => none

/-- The min–max range of the baseline entries matching a material and
property exactly. -/
def baselineRangeFor (baseline : List BaselineEntry) (mat prop : String) : Option (ℚ × ℚ) :=
  match baseline.filter (fun b => b.material = mat ∧ b.property = prop) with
  | [] => none
  | e :: es =>
    some ((es.map BaselineEntry.value_min).foldl min e.value_min,
          (es.map BaselineEntry.value_max).foldl max e.value_max)

/-- The union (convex hull) of two optional ranges. -/
def rangeUnion : Option (ℚ × ℚ) → Option (ℚ × ℚ) → Option (ℚ × ℚ)
  | none, none => none
  | some r, none => some r
  | none, some s => some s
  | some r, some s => some (min r.1 s.1, max r.2 s.2)

/-- Do two closed ranges overlap? -/
def rangesOverlap (r s : ℚ × ℚ) : Bool := r.1 ≤ s.2 ∧ s.1 ≤ r.2

/-- Modelled from the spec: the novelty rule of §4.5, evaluated in priority
order — `no_baseline` when neither a cited-literature nor a baseline range
exists, `within_baseline` on overlap with the union, `possible_outlier_high`
when the minimum of this work exceeds the maximum of the union,
`possible_outlier_low` when the maximum of this work is below the minimum
of the union, `none` otherwise. -/
def noveltyFlag (tw lit base : Option (ℚ × ℚ)) : String :=
  match rangeUnion lit base with
  | none => "no_baseline"
  | some u =>
    match tw with
    | none => "none"
    | some t =>
      if rangesOverlap t u then "within_baseline"
      else if u.2 < t.1 then "possible_outlier_high"
      else if t.2 < u.1 then "possible_outlier_low"
      else "none"

/-- An aggregated comparison row with its numeric ranges. -/
structure ComparisonRowAgg where
  this_work : Option (ℚ × ℚ)
  paper_cited_literature : Option (ℚ × ℚ)
  external_baseline : Option (ℚ × ℚ)
  novelty_flag : String
deriving DecidableEq

/-- Modelled from the spec: the Comparison & Novelty Aggregator (§4.5) is
part of the Python pipeline, which is not among the repository files
available here; the viewer only renders its output rows.  For one group
key it ranges this-work records (`origin ∈ {this_work, mixed}`), paper-cited
literature records (`origin ∈ {literature, mixed}`) and matching baseline
entries, excluding every record with a non-empty `hard_fail` set. -/
def comparisonRowFor (records : List Record) (baseline : List BaselineEntry)
    (key : String × String × String) : ComparisonRowAgg :=
  let grp := records.filter (fun r => eligible r ∧ groupKey r = key)
  let tw := rangeOf (grp.filter (fun r => r.origin = some "this_work" ∨ r.origin = some "mixed"))
  let lit := rangeOf (grp.filter (fun r => r.origin = some "literature" ∨ r.origin = some "mixed"))
  let base := baselineRangeFor baseline key.1 key.2.1
  { this_work := tw
    paper_cited_literature := lit
    external_baseline := base
    novelty_flag := noveltyFlag tw lit base }

/-- The initial filter state of the viewer: empty search, origin and
category set to all, hard-fail-only unchecked. -/
def neutralFilters : Filters where
  search := ""
  origin := "all"
  category := "all"
  hardFailOnly := false

/-- Scenario 1 record (§8): ionic conductivity 1.2e-4 S/cm reported by
this work. -/
def scenario1Record : Record where
  material := some "PEO-LiTFSI"
  property := some "ionic_conductivity"
  category := some "electrolyte"
  value_min := some (1.2e-4 : ℚ)
  unit_original := some "S/cm"
  origin := some "this_work"

/-- Scenario 2 (§8): the paper-cited literature record spanning
[3.0e-5, 9.0e-5] S/cm for the same material and property. -/
def scenario2Literature : Record where
  material := some "PEO-LiTFSI"
  property := some "ionic_conductivity"
  category := some "electrolyte"
  value_min := some (3.0e-5 : ℚ)
  value_max := some (9.0e-5 : ℚ)
  unit_original := some "S/cm"
  origin := some "literature"

/-- Scenario 2 (§8): the external baseline range [1.0e-5, 8.0e-5] S/cm. -/
def scenario2Baseline : BaselineEntry where
  material := "PEO-LiTFSI"
  property := "ionic_conductivity"
  value_min := (1.0e-5 : ℚ)
  value_max := (8.0e-5 : ℚ)
  unit_si := "S/cm"

/-- The group key of the scenario records. -/
def scenario2Key : String × String × String :=
  ("PEO-LiTFSI", "ionic_conductivity", "electrolyte")

/-! ## Theorems -/

/-- C2: every comparison row is rendered with exactly the columns
material, property, category, this_work, paper_cited_literature,
external_baseline, novelty_flag, in that order, each cell taken from the
field of the row with the same name, missing fields rendering as the empty
string. -/
theorem claim_c2_comparison_columns (rows : List ComparisonRowObj) :
    comparisonCols = ["material", "property", "category", "this_work",
      "paper_cited_literature", "external_baseline", "novelty_flag"] ∧
    renderComparisonTable rows = rows.map (fun r =>
      [r.material.getD "", r.property.getD "", r.category.getD "",
       r.this_work.getD "", r.paper_cited_literature.getD "",
       r.external_baseline.getD "", r.novelty_flag.getD ""]) := by
  refine ⟨rfl, ?_⟩
  simp [renderComparisonTable, comparisonCols, cmpField]

/-- C6: the produced document-level export object has exactly the
top-level fields doc_id, records, comparison, tables, figures (with a
nested images sequence) and logs; the consumer `loadJsonObject`
finds every one of them by exactly these names. -/
theorem claim_c6_export_fields (doc_id : String)
    (records comparison tables images : List Json) (logs : List String) :
    (exportDocument doc_id records comparison tables images logs).get "doc_id"
        = some (Json.str doc_id) ∧
    (exportDocument doc_id records comparison tables images logs).get "records"
        = some (Json.arr records) ∧
    (exportDocument doc_id records comparison tables images logs).get "comparison"
        = some (Json.arr comparison) ∧
    (exportDocument doc_id records comparison tables images logs).get "tables"
        = some (Json.arr tables) ∧
    ((exportDocument doc_id records comparison tables images logs).get "figures").bind
        (fun f => f.get "images") = some (Json.arr images) ∧
    (exportDocument doc_id records comparison tables images logs).get "logs"
        = some (Json.arr (logs.map Json.str)) ∧
    loadJsonObject (exportDocument doc_id records comparison tables images logs) =
      some ⟨records, comparison, tables,
            some (Json.obj [("images", Json.arr images)]), logs.map Json.str⟩ :=
  ⟨rfl, rfl, rfl, rfl, rfl, rfl, rfl⟩

/-- C1: the flat CSV projection of records has exactly the columns
material, category, property, value_min, value_max, unit_original,
origin, confidence, page, citations, hard_fail, in that order; every data
line takes each cell from the corresponding field of the record of its view,
with page from provenance.page and citations/hard_fail joined from their
sequences. -/
theorem claim_c1_csv_projection (records : List Record) (views : List RecordView) :
    (exportFilteredCsv records views).head? =
      some "material,category,property,value_min,value_max,unit_original,origin,confidence,page,citations,hard_fail" ∧
    (exportFilteredCsv records views).tail = views.map (fun v =>
      String.intercalate ","
        ([jsStr (jsIndex records v.idx).material,
          jsStr (jsIndex records v.idx).category,
          jsStr (jsIndex records v.idx).property,
          jsShow (jsIndex records v.idx).value_min,
          jsShow (jsIndex records v.idx).value_max,
          jsStr (jsIndex records v.idx).unit_original,
          jsStr (jsIndex records v.idx).origin,
          jsShow (jsIndex records v.idx).confidence,
          pageStr (jsIndex records v.idx),
          String.intercalate "; " ((jsIndex records v.idx).citations.getD []),
          String.intercalate "; " (hardFailList (jsIndex records v.idx))].map csvCell)) := by
  constructor
  · rfl
  · rfl

/-- C7: a record is a point value exactly when value_max equals value_min
or is null; such a record displays as the single formatted value_min, a
record with distinct non-null bounds displays as the en-dash range, and a
record with null value_min displays as empty. -/
theorem claim_c7_value_display (r : Record) (a : ℚ) :
    (r.value_min = none → valueDisplay r = "") ∧
    (r.value_min = some a → r.value_max = none ∨ r.value_max = some a →
      valueDisplay r = fmtValue a) ∧
    (∀ b : ℚ, r.value_min = some a → r.value_max = some b → b ≠ a →
      valueDisplay r = fmtValue a ++ "–" ++ fmtValue b) := by
  refine ⟨?_, ?_, ?_⟩
  · intro h; simp [valueDisplay, h]
  · intro h hb
    rcases hb with hb | hb <;> simp [valueDisplay, h, hb]
  · intro b h hb hne
    simp [valueDisplay, h, hb, hne]

/-- C7 witness: a concrete point-value record displays as its single
formatted value. -/
theorem claim_c7_value_display_witness :
    valueDisplay { value_min := some 5, value_max := some 5 } = fmtValue 5 :=
  (claim_c7_value_display { value_min := some 5, value_max := some 5 } 5).2.1 rfl (Or.inr rfl)

/-- The empty string occurs in every string. -/
theorem strContains_empty (s : String) : strContains s "" = true := by
  unfold strContains
  cases s.toList <;> simp [hasSubChars, startsWithChars, List.isEmpty]

/-- Lemma: `recordMatchesFilters` is the conjunction of the four filter
conditions. -/
theorem recordMatchesFilters_iff (f : Filters) (r : Record) :
    recordMatchesFilters f r = true ↔
      ((f.origin = "all" ∨ r.origin.getD "" = f.origin) ∧
       (f.category = "all" ∨ r.category.getD "" = f.category) ∧
       (f.hardFailOnly = true → hardFailList r ≠ []) ∧
       strContains (searchHay r) (lowerStr (trimStr f.search)) = true) := by
  simp only [recordMatchesFilters]
  split_ifs with h1 h2 h3 h4
  · simp only [Bool.false_eq_true, false_iff]
    intro hc
    rcases hc.1 with h | h
    · exact h1.1 h
    · exact h1.2 h
  · simp only [Bool.false_eq_true, false_iff]
    intro hc
    rcases hc.2.1 with h | h
    · exact h2.1 h
    · exact h2.2 h
  · simp only [Bool.false_eq_true, false_iff]
    intro hc
    exact hc.2.2.1 h3.1 (List.isEmpty_iff.mp h3.2)
  · push_neg at h1 h2 h3
    constructor
    · intro hq
      refine ⟨?_, ?_, ?_, hq⟩
      · by_cases h : f.origin = "all"
        · exact Or.inl h
        · exact Or.inr (h1 h)
      · by_cases h : f.category = "all"
        · exact Or.inl h
        · exact Or.inr (h2 h)
      · intro hf hnil
        exact h3 hf (by simp [hnil])
    · intro hc
      exact hc.2.2.2
  · push_neg at h1 h2 h3 h4
    simp only [true_iff]
    refine ⟨?_, ?_, ?_, ?_⟩
    · by_cases h : f.origin = "all"
      · exact Or.inl h
      · exact Or.inr (h1 h)
    · by_cases h : f.category = "all"
      · exact Or.inl h
      · exact Or.inr (h2 h)
    · intro hf hnil
      exact h3 hf (by simp [hnil])
    · rw [h4]
      exact strContains_empty _

/-- Mapping filtered views back through their stored indices recovers the
filter of the record list (the loop invariant of `buildRecordViews`). -/
theorem buildRecordViewsAux_map_jsIndex (f : Filters) (all : List Record) :
    ∀ (rs : List Record) (i : ℕ),
      (∀ k : ℕ, rs.get? k = all.get? (i + k)) →
      (buildRecordViewsAux f i rs).map (fun v => jsIndex all v.idx) =
        rs.filter (fun r => recordMatchesFilters f r) := by
  intro rs
  induction rs with
  | nil => intro i h; simp [buildRecordViewsAux]
  | cons r rs ih =>
    intro i h
    have h0 : all.get? i = some r := by
      have := h 0
      simpa using this.symm
    have hs : ∀ k : ℕ, rs.get? k = all.get? (i + 1 + k) := by
      intro k
      have := h (k + 1)
      rw [show i + (k + 1) = i + 1 + k by omega] at this
      simpa using this
    have hj : jsIndex all i = r := by
      unfold jsIndex
      rw [h0]
      rfl
    by_cases hm : recordMatchesFilters f r
    · simp only [buildRecordViewsAux, hm, if_true, List.map_cons, List.filter_cons,
        ite_true, List.cons_eq_cons]
      exact ⟨hj, ih (i + 1) hs⟩
    · simp [buildRecordViewsAux, hm, List.filter_cons, ih (i + 1) hs]

/-- The filtered JSON export is exactly the records passing the filters. -/
theorem exportFilteredJson_eq_filter (f : Filters) (records : List Record) :
    exportFilteredJson records (buildRecordViews f records) =
      records.filter (fun r => recordMatchesFilters f r) := by
  unfold exportFilteredJson buildRecordViews
  exact buildRecordViewsAux_map_jsIndex f records records 0 (fun k => by simp)

/-- C9: a record is included in the filtered views and exports exactly
when it passes the four filters conjointly — origin (unless all),
category (unless all), a non-empty hard_fail set when the hard-fail-only
box is checked, and the haystack containing the lowercased trimmed
query. -/
theorem claim_c9_filter_conjunction (records : List Record) (f : Filters) (r : Record) :
    exportFilteredJson records (buildRecordViews f records) =
      records.filter (fun x => recordMatchesFilters f x) ∧
    (recordMatchesFilters f r = true ↔
      ((f.origin = "all" ∨ r.origin.getD "" = f.origin) ∧
       (f.category = "all" ∨ r.category.getD "" = f.category) ∧
       (f.hardFailOnly = true → hardFailList r ≠ []) ∧
       strContains (searchHay r) (lowerStr (trimStr f.search)) = true)) :=
  ⟨exportFilteredJson_eq_filter f records, recordMatchesFilters_iff f r⟩

/-- C10: when the origin of every record is one of this_work, literature,
mixed, unclear or absent (absent counting as unclear), the four per-origin
counts shown by `renderRecordsTable` — computed from the full loaded
record list, so unaffected by any filter state — sum to the total number
of loaded records. -/
theorem claim_c10_origin_counts (records : List Record)
    (h : ∀ r ∈ records, r.origin = none ∨ r.origin = some "this_work" ∨
      r.origin = some "literature" ∨ r.origin = some "mixed" ∨
      r.origin = some "unclear") :
    countOrigin records "this_work" + countOrigin records "literature" +
      countOrigin records "mixed" + countOrigin records "unclear" =
      records.length := by
  induction records with
  | nil => simp [countOrigin]
  | cons r rs ih =>
    have hr := h r (List.mem_cons_self r rs)
    have ih' := ih (fun x hx => h x (List.mem_cons_of_mem r hx))
    have e1 : ∀ o : String, countOrigin (r :: rs) o =
        countOrigin rs o + (if originKeyOf r = o then 1 else 0) := by
      intro o
      simp [countOrigin, List.countP_cons]
    rw [e1, e1, e1, e1, List.length_cons]
    rcases hr with h0 | h0 | h0 | h0 | h0 <;>
      simp only [originKeyOf, h0, Option.getD_some, Option.getD_none] <;>
      simp <;> omega

/-- C10 witness: two records, one labeled this_work and one with no
origin, give counts summing to two. -/
theorem claim_c10_origin_counts_witness :
    countOrigin [{ origin := some "this_work" }, ({} : Record)] "this_work" +
      countOrigin [{ origin := some "this_work" }, ({} : Record)] "literature" +
      countOrigin [{ origin := some "this_work" }, ({} : Record)] "mixed" +
      countOrigin [{ origin := some "this_work" }, ({} : Record)] "unclear" =
      ([{ origin := some "this_work" }, ({} : Record)] : List Record).length :=
  claim_c10_origin_counts _ (by decide)

/-- C4: normalization of an ionic-conductivity value in S/cm multiplies by
exactly 100 into S/m; the Scenario 1 record with value_min 1.2e-4 S/cm
normalizes to value_si_min 0.012 S/m. -/
theorem claim_c4_si_conversion :
    (∀ v : ℚ, toSI "S/cm" "ionic_conductivity" v = some (v * 100)) ∧
    (normalizeRecord scenario1Record).value_si_min = some (0.012 : ℚ) ∧
    (normalizeRecord scenario1Record).unit_si = some "S/m" := by
  refine ⟨fun v => ?_, ?_, ?_⟩
  · simp [toSI, findRule, conversionRules, List.find?]
  · simp only [normalizeRecord, scenario1Record, findRule, conversionRules, List.find?]
    norm_num
  · simp only [normalizeRecord, scenario1Record, findRule, conversionRules, List.find?]
    norm_num

/-- C8: for every supported (unit_original, property) pair, converting any
value to SI and back with the inverse factor recovers it, in particular
within 1e-9 relative tolerance. -/
theorem claim_c8_roundtrip (c : ConvRule) (hc : c ∈ conversionRules) (v : ℚ) :
    ∃ w : ℚ,
      (toSI c.unit_original c.property v).bind (fromSI c.unit_original c.property) = some w ∧
      |w - v| ≤ 1/1000000000 * |v| := by
  fin_cases hc <;>
    refine ⟨v, ?_, by simp⟩ <;>
    simp [toSI, fromSI, findRule, conversionRules, List.find?]

/-- C8 witness: the S/cm conductivity rule round-trips the value 7. -/
theorem claim_c8_roundtrip_witness :
    ∃ w : ℚ,
      (toSI "S/cm" "ionic_conductivity" 7).bind (fromSI "S/cm" "ionic_conductivity") = some w ∧
      |w - 7| ≤ 1/1000000000 * |(7 : ℚ)| :=
  claim_c8_roundtrip ⟨"S/cm", "ionic_conductivity", 100, "S/m"⟩
    (by simp [conversionRules]) 7

/-- C3: for a group with this_work value 1.2e-4 S/cm, cited-literature
range [3.0e-5, 9.0e-5] S/cm and external baseline range [1.0e-5, 8.0e-5]
S/cm, the aggregator computes exactly those ranges and flags
possible_outlier_high, the minimum of this work exceeding the maximum of
the union. -/
theorem claim_c3_outlier_high :
    (comparisonRowFor [scenario1Record, scenario2Literature] [scenario2Baseline]
        scenario2Key) =
      { this_work := some ((1.2e-4 : ℚ), (1.2e-4 : ℚ))
        paper_cited_literature := some ((3.0e-5 : ℚ), (9.0e-5 : ℚ))
        external_baseline := some ((1.0e-5 : ℚ), (8.0e-5 : ℚ))
        novelty_flag := "possible_outlier_high" } := by
  simp only [comparisonRowFor, scenario1Record, scenario2Literature, scenario2Baseline,
    scenario2Key, eligible, hardFailList, groupKey, rangeOf, recordLo, recordHi,
    baselineRangeFor, rangeUnion, rangesOverlap, noveltyFlag, List.filter,
    List.filterMap]
  norm_num

/-- Every record passes the initial filter state of the viewer. -/
theorem recordMatchesFilters_neutral (r : Record) :
    recordMatchesFilters neutralFilters r = true := by
  have hq : lowerStr (trimStr "") = "" := rfl
  simp [recordMatchesFilters, neutralFilters, hq]

/-- Filtering by the initial filter state keeps every record. -/
theorem filter_neutral_eq (records : List Record) :
    records.filter (fun r => recordMatchesFilters neutralFilters r) = records :=
  List.filter_eq_self.mpr (fun r _ => recordMatchesFilters_neutral r)

/-- C5: a record with a non-empty hard_fail set contributes to no
comparison row (dropping it leaves every aggregated row unchanged), yet it
is retained by the record export: it passes the initial filters, appears
in the filtered JSON export, and its CSV line lists its joined hard_fail
entries. -/
theorem claim_c5_hard_fail_quarantine (r : Record) (records : List Record)
    (baseline : List BaselineEntry) (key : String × String × String)
    (h : hardFailList r ≠ []) :
    comparisonRowFor (r :: records) baseline key =
      comparisonRowFor records baseline key ∧
    recordMatchesFilters neutralFilters r = true ∧
    exportFilteredJson (r :: records) (buildRecordViews neutralFilters (r :: records)) =
      r :: records ∧
    (exportFilteredCsv (r :: records)
        (buildRecordViews neutralFilters (r :: records))).get? 1 =
      some (String.intercalate ","
        ([jsStr r.material, jsStr r.category, jsStr r.property,
          jsShow r.value_min, jsShow r.value_max, jsStr r.unit_original,
          jsStr r.origin, jsShow r.confidence, pageStr r,
          String.intercalate "; " (r.citations.getD []),
          String.intercalate "; " (hardFailList r)].map csvCell)) := by
  refine ⟨?_, recordMatchesFilters_neutral r, ?_, ?_⟩
  · have he : eligible r = false := by
      simp [eligible, List.isEmpty_iff, h]
    simp only [comparisonRowFor, List.filter_cons, he]
    simp
  · rw [exportFilteredJson_eq_filter]
    exact filter_neutral_eq _
  · simp only [buildRecordViews, buildRecordViewsAux, recordMatchesFilters_neutral r,
      if_true]
    simp [exportFilteredCsv, jsIndex, mkRecordView]

/-- C5 witness: a record whose hard_fail list holds `inverted_range` is
dropped from aggregation yet passes the initial filters. -/
theorem claim_c5_hard_fail_quarantine_witness :
    comparisonRowFor [{ constraints := some ⟨["inverted_range"], []⟩ }] [] ("", "", "") =
      comparisonRowFor [] [] ("", "", "") ∧
    recordMatchesFilters neutralFilters { constraints := some ⟨["inverted_range"], []⟩ } =
      true :=
  ⟨(claim_c5_hard_fail_quarantine { constraints := some ⟨["inverted_range"], []⟩ }
      [] [] ("", "", "") (by decide)).1,
   (claim_c5_hard_fail_quarantine { constraints := some ⟨["inverted_range"], []⟩ }
      [] [] ("", "", "") (by decide)).2.1⟩

/-- C9 witness: with the initial filter state, a concrete one-record list
exports exactly its filtered records. -/
theorem claim_c9_filter_conjunction_witness :
    exportFilteredJson [({} : Record)] (buildRecordViews neutralFilters [({} : Record)]) =
      ([({} : Record)] : List Record).filter
        (fun x => recordMatchesFilters neutralFilters x) :=
  (claim_c9_filter_conjunction [({} : Record)] neutralFilters ({} : Record)).1
